import Mathlib

set_option maxRecDepth 40000

/-
  Verification of the Mini RAG backend against its specification.

  The development shallowly embeds the Python services of the repository:
  * `backend/app/services/chunking.py` (ChunkingService.chunk_text),
  * `backend/app/services/retrieval.py` (RetrievalService.retrieve_and_rerank,
    RetrievalService._rerank_documents),
  * `backend/app/services/llm.py` (LLMService.generate_answer,
    LLMService._extract_citations, LLMService._estimate_token_usage,
    LLMService._estimate_cost),
  * `backend/app/routes.py` (DocumentRoutes.query_documents,
    DocumentRoutes._no_results_response, DocumentRoutes._build_response).

  Strings are embedded as `List Char`, Python floats as rationals (the claims
  under study are structural: which numbers are combined, not how binary
  floating point rounds them), wall-clock durations measured with `time.time()`
  as explicit rational parameters, and external collaborators (vector index,
  reranker, generative model) as explicit functional parameters, with
  exceptions raised by a collaborator represented by `Except`/sum outcomes.
  The `while` loop of `chunk_text` is embedded with explicit fuel, so that
  non-termination of the Python loop is expressible as: the interpreter
  returns `none` for every fuel.
-/

namespace RAG

/-- Python whitespace characters: the characters recognised by `str.split()`
and `str.strip()` for ASCII text. -/
def isPySpace (c : Char) : Bool :=
  c = ' ' || c = '\t' || c = '\n' || c = '\r' || c = '\x0b' || c = '\x0c'

/-- One-pass accumulator implementation of Python `str.split()` (no
arguments): the list of maximal runs of non-whitespace characters.  `acc`
holds the reversed current run. -/
def pySplitAux : List Char → List Char → List (List Char)
  | [], acc => if acc = [] then [] else [acc.reverse]
  | c :: rest, acc =>
    if isPySpace c then
      if acc = [] then pySplitAux rest [] else acc.reverse :: pySplitAux rest []
    else
      pySplitAux rest (c :: acc)

/-- Python `text.split()`. -/
def pySplit (l : List Char) : List (List Char) := pySplitAux l []

/-- Python `" ".join(text.split())` — the whitespace normalisation performed
at the top of `ChunkingService.chunk_text`. -/
def cleanText (text : List Char) : List Char := List.intercalate [' '] (pySplit text)

/-- Python `str.strip()`: drop leading and trailing whitespace. -/
def pyStrip (l : List Char) : List Char :=
  ((l.dropWhile isPySpace).reverse.dropWhile isPySpace).reverse

/-- The inner `while end > start and cleaned_text[end] != ' '` loop of
`chunk_text`, which walks the window end leftwards to a word boundary.
Structural recursion on `e` (the loop decrements `end` by one each step). -/
def walkBack (cleaned : List Char) (start : Nat) : Nat → Nat
  | 0 => 0
  | e + 1 =>
    if start < e + 1 ∧ cleaned[e + 1]? ≠ some ' ' then walkBack cleaned start e
    else e + 1

/-- Metadata dictionary attached to each chunk by `chunk_text`.  The Python
key `"section"` is a Lean keyword, hence the field name `sectionName`. -/
structure ChunkMetadata where
  source : List Char
  title : List Char
  sectionName : List Char
  position : Nat
  deriving DecidableEq

/-- The `TextChunk` dataclass of `chunking.py`. -/
structure TextChunk where
  id : List Char
  content : List Char
  metadata : ChunkMetadata
  deriving DecidableEq

/-- `self.chunk_size` set in `ChunkingService.__init__`. -/
def chunk_size : Nat := 1000

/-- `self.chunk_overlap` set in `ChunkingService.__init__`. -/
def chunk_overlap : Nat := 150

/-- The final value of the Python local `end` for one loop iteration of
`chunk_text`: the naive boundary `start + chunk_size`, walked left to the
nearest space when the window ends inside the text, and restored to the
naive boundary when the walk came all the way back to `start`. -/
def windowEnd (cleaned : List Char) (start : Nat) : Nat :=
  if start + chunk_size < cleaned.length then
    (if walkBack cleaned start (start + chunk_size) = start then start + chunk_size
     else walkBack cleaned start (start + chunk_size))
  else start + chunk_size

/-- Python `cleaned_text[start:end].strip()`. -/
def windowPiece (cleaned : List Char) (start endPos : Nat) : List Char :=
  pyStrip ((cleaned.drop start).take (endPos - start))

/-- Python `start = end - self.chunk_overlap; if start < 0: start = end`,
rendered with an explicit conditional since `end - overlap` is a possibly
negative Python int. -/
def nextStartOf (endPos : Nat) : Nat :=
  if endPos < chunk_overlap then endPos else endPos - chunk_overlap

/-- Fuel-indexed interpreter of the `while start < len(cleaned_text)` loop of
`ChunkingService.chunk_text`.  One unit of fuel is one loop iteration;
`none` means the fuel ran out before the loop exited.  `uuidHex chunk_num`
stands for the value of `uuid.uuid4().hex[:8]` drawn when the chunk with
ordinal `chunk_num` is emitted. -/
def chunkTextAux (cleaned : List Char) (source title sectionName : List Char)
    (uuidHex : Nat → List Char) : Nat → Nat → Nat → Option (List TextChunk)
  | 0, _, _ => none
  | fuel + 1, start, chunk_num =>
    if start < cleaned.length then
      if windowPiece cleaned start (windowEnd cleaned start) = [] then
        chunkTextAux cleaned source title sectionName uuidHex fuel
          (nextStartOf (windowEnd cleaned start)) chunk_num
      else
        (chunkTextAux cleaned source title sectionName uuidHex fuel
            (nextStartOf (windowEnd cleaned start)) (chunk_num + 1)).map
          (fun rest =>
            { id := source ++ '_' :: (Nat.toDigits 10 chunk_num ++ '_' :: uuidHex chunk_num),
              content := windowPiece cleaned start (windowEnd cleaned start),
              metadata :=
                { source := source, title := title, sectionName := sectionName,
                  position := chunk_num } } :: rest)
    else
      some []

/-- `ChunkingService.chunk_text`, run with the given fuel. -/
def chunk_text (text source title sectionName : List Char) (uuidHex : Nat → List Char)
    (fuel : Nat) : Option (List TextChunk) :=
  chunkTextAux (cleanText text) source title sectionName uuidHex fuel 0 0

/-- The `SourceDocument` pydantic model of `schemas.py`; `rerank_score`
defaults to `None`. -/
structure SourceDocument where
  id : List Char
  content : List Char
  source : List Char
  title : List Char
  score : ℚ
  rerank_score : Option ℚ
  deriving DecidableEq

/-- The `RetrievalResult` pydantic model of `schemas.py`. -/
structure RetrievalResult where
  documents : List SourceDocument
  retrieval_time : ℚ
  rerank_time : ℚ
  deriving DecidableEq

/-- One formatted match returned by `VectorStoreService.query_similar`. -/
structure QueryMatch where
  id : List Char
  score : ℚ
  content : List Char
  source : List Char
  title : List Char
  deriving DecidableEq

/-- One entry of `rerank_response.results` returned by the Cohere reranker. -/
structure RerankItem where
  index : Nat
  relevance_score : ℚ
  deriving DecidableEq

/-- The `SourceDocument(...)` construction inside `retrieve_and_rerank`:
`rerank_score` is not passed, so it takes its `None` default. -/
def toSourceDocument (m : QueryMatch) : SourceDocument :=
  { id := m.id, content := m.content, source := m.source, title := m.title,
    score := m.score, rerank_score := none }

/-- The reorder loop of `_rerank_documents`: for each rerank result, look up
`documents[result.index]` and attach the relevance score.  `none` models an
`IndexError` raised by an out-of-range index (swallowed by the surrounding
`except`, which then falls back). -/
def applyRerankResults (documents : List SourceDocument) (results : List RerankItem) :
    Option (List SourceDocument) :=
  results.mapM (fun r =>
    (documents[r.index]?).map (fun d => { d with rerank_score := some r.relevance_score }))

/-- `RetrievalService._rerank_documents`.  The external Cohere call is the
parameter `rerank` (query, document texts, top_n); `Except.error` models the
call raising.  Every failure is caught locally and answered with
`documents[:top_k]` — the function is total, no error propagates. -/
def rerank_documents (query : List Char) (documents : List SourceDocument) (top_k : Nat)
    (rerank : List Char → List (List Char) → Nat → Except Unit (List RerankItem)) :
    List SourceDocument :=
  match rerank query (documents.map (fun d => d.content)) top_k with
  | Except.error _ => documents.take top_k
  | Except.ok results =>
    match applyRerankResults documents results with
    | some reranked => reranked
    | none => documents.take top_k

/-- `RetrievalService.retrieve_and_rerank`.  `similar_docs` is the response
of `vector_store.query_similar` for the embedded query, `cohere_configured`
is `self.cohere_client is not None`, and the two rationals are the wall-clock
durations measured with `time.time()` around the retrieval step and the
rerank step (the code returns the literal `0.0` rerank time on the empty
short-circuit path). -/
def retrieve_and_rerank (query : List Char) (rerank_top_k : Nat)
    (similar_docs : List QueryMatch) (cohere_configured : Bool)
    (rerank : List Char → List (List Char) → Nat → Except Unit (List RerankItem))
    (retrieval_time rerank_duration : ℚ) : RetrievalResult :=
  if similar_docs.isEmpty then
    { documents := [], retrieval_time := retrieval_time, rerank_time := 0 }
  else
    { documents :=
        if cohere_configured ∧ 1 < (similar_docs.map toSourceDocument).length then
          rerank_documents query (similar_docs.map toSourceDocument) rerank_top_k rerank
        else (similar_docs.map toSourceDocument).take rerank_top_k,
      retrieval_time := retrieval_time, rerank_time := rerank_duration }

/-- The `Citation` pydantic model of `schemas.py`. -/
structure Citation where
  index : Nat
  source : List Char
  title : List Char
  content_snippet : List Char
  deriving DecidableEq

/-- The `TokenUsage` pydantic model of `schemas.py`. -/
structure TokenUsage where
  prompt_tokens : Nat
  completion_tokens : Nat
  total_tokens : Nat
  deriving DecidableEq

/-- The `LLMResponse` pydantic model of `schemas.py`. -/
structure LLMResponse where
  answer : List Char
  citations : List Citation
  generation_time : ℚ
  token_usage : Option TokenUsage
  estimated_cost : Option ℚ
  deriving DecidableEq

/-- Left-to-right scan equivalent to `re.findall(r'\[(\d+)\]', answer)`: the
state `some ds` means a `'['` was seen and `ds` are the digits read since.
On a mismatch the scan resumes exactly where Python's regex engine would
(the skipped characters are digits, which cannot open a marker, so the
failing character itself is reconsidered as a fresh start). -/
def findMarkersAux : List Char → Option (List Char) → List (List Char)
  | [], _ => []
  | c :: rest, none =>
    if c = '[' then findMarkersAux rest (some []) else findMarkersAux rest none
  | c :: rest, some ds =>
    if c.isDigit then findMarkersAux rest (some (ds ++ [c]))
    else if c = ']' ∧ ds ≠ [] then ds :: findMarkersAux rest none
    else if c = '[' then findMarkersAux rest (some [])
    else findMarkersAux rest none

/-- All bracketed digit groups of the answer, in order of occurrence. -/
def findMarkers (answer_text : List Char) : List (List Char) :=
  findMarkersAux answer_text none

/-- Python `int(...)` on a (non-empty) digit string. -/
def digitsToNat (ds : List Char) : Nat :=
  ds.foldl (fun n c => 10 * n + (c.toNat - ('0').toNat)) 0

/-- Python `set(found_citations)` as iterated over by the extraction loop:
one occurrence per distinct string.  CPython's set iteration order is
unspecified; it is fixed here as first-occurrence order, which the final
sort makes irrelevant to the claims under study. -/
def pySet (l : List (List Char)) : List (List Char) :=
  l.foldl (fun acc x => if x ∈ acc then acc else acc ++ [x]) []

/-- Ordering key of `citations.sort(key=lambda x: x.index)`. -/
def citLE (a b : Citation) : Prop := a.index ≤ b.index

instance : DecidableRel citLE :=
  fun a b => inferInstanceAs (Decidable (a.index ≤ b.index))

instance : IsTotal Citation citLE := ⟨fun a b => Nat.le_total a.index b.index⟩

instance : IsTrans Citation citLE := ⟨fun _ _ _ hab hbc => Nat.le_trans hab hbc⟩

/-- The `Citation(...)` built for an in-range marker: snippet is the first
150 characters of the document content, with an ellipsis marker when the
content is longer. -/
def mkCitation (n : Nat) (doc : SourceDocument) : Citation :=
  { index := n, source := doc.source, title := doc.title,
    content_snippet := doc.content.take 150
      ++ (if 150 < doc.content.length then ['.', '.', '.'] else []) }

/-- `LLMService._extract_citations`:  find all bracketed integer markers,
deduplicate them as a Python `set` of strings, keep those whose value lies in
`[1, len(context_documents)]`, build a Citation for each from the 1-based
index into the context list, and sort ascending by index (Python's sort is
stable, as is `List.insertionSort`). -/
def _extract_citations (answer_text : List Char) (context_documents : List SourceDocument) :
    List Citation :=
  let found := findMarkers answer_text
  let citations := (pySet found).filterMap (fun s =>
    let n := digitsToNat s
    if 1 ≤ n ∧ n ≤ context_documents.length then
      (context_documents[n - 1]?).map (mkCitation n)
    else none)
  List.insertionSort citLE citations

/-- `LLMService._estimate_token_usage`: `len(...) // 4` for prompt and
completion independently, summed for the total. -/
def _estimate_token_usage (prompt response : List Char) : TokenUsage :=
  { prompt_tokens := prompt.length / 4, completion_tokens := response.length / 4,
    total_tokens := prompt.length / 4 + response.length / 4 }

/-- Round-half-even to an integer, the rounding rule of Python `round`. -/
def roundHalfEven (x : ℚ) : ℤ :=
  if Int.fract x < 1 / 2 then ⌊x⌋
  else if 1 / 2 < Int.fract x then ⌊x⌋ + 1
  else if ⌊x⌋ % 2 = 0 then ⌊x⌋ else ⌊x⌋ + 1

/-- Python `round(x, 6)`. -/
def pyRound6 (x : ℚ) : ℚ := (roundHalfEven (x * 1000000) : ℚ) / 1000000

/-- `LLMService._estimate_cost`: `(prompt_tokens / 1000) * 0.000075 +
(completion_tokens / 1000) * 0.0003`, rounded to 6 decimal places. -/
def _estimate_cost (tu : TokenUsage) : ℚ :=
  pyRound6 ((tu.prompt_tokens : ℚ) / 1000 * (75 / 1000000)
    + (tu.completion_tokens : ℚ) / 1000 * (3 / 10000))

/-- One `"[i] Source: ...\nContent: ...\n\n"` entry of the grounding prompt. -/
def contextEntry (i : Nat) (doc : SourceDocument) : List Char :=
  '[' :: (Nat.toDigits 10 i ++ ']' :: ((" Source: ").data ++ doc.source
    ++ '\n' :: (("Content: ").data ++ doc.content ++ ['\n', '\n'])))

/-- The enumerated context block of the prompt (1-based ordinals). -/
def context_text (context_documents : List SourceDocument) : List Char :=
  ((List.enumFrom 1 context_documents).map (fun p => contextEntry p.1 p.2)).flatten

/-- The fixed instruction header of the grounding prompt. -/
def promptHeader : List Char :=
  ("Answer the question using only the provided context documents. Include citations [1], [2], etc.\n\nCONTEXT:\n").data

/-- The full grounding prompt f-string of `generate_answer`. -/
def build_prompt (query : List Char) (context_documents : List SourceDocument) : List Char :=
  promptHeader ++ context_text context_documents ++ ("\n\nQUESTION: ").data ++ query
    ++ ("\n\nANSWER WITH CITATIONS:").data

/-- Canned answer returned when `context_documents` is empty. -/
def noInfoMsg : List Char :=
  ("I couldn't find any relevant information to answer your question.").data

/-- Replacement text used when `response.text` raises (inner `except`). -/
def unreadableMsg : List Char :=
  ("I apologize, but I couldn't generate a proper response.").data

/-- Degraded answer returned by the outer `except` of `generate_answer`. -/
def errorMsg : List Char :=
  ("I apologize, but I encountered an error while generating the answer.").data

/-- Outcome of the external `model.generate_content` call: the call raised,
the call returned a response whose `.text` accessor raises, or it returned
readable text. -/
inductive ModelOutcome where
  | raised : ModelOutcome
  | unreadable : ModelOutcome
  | text : List Char → ModelOutcome
  deriving DecidableEq

/-- The tail of `generate_answer` after the model call returned: citation
extraction, token estimation and response assembly for the answer text. -/
def successResponse (query : List Char) (context_documents : List SourceDocument)
    (answer_text : List Char) (generation_time : ℚ) : LLMResponse :=
  let tu := _estimate_token_usage (build_prompt query context_documents) answer_text
  { answer := answer_text,
    citations := _extract_citations answer_text context_documents,
    generation_time := generation_time,
    token_usage := some tu,
    estimated_cost := some (_estimate_cost tu) }

/-- `LLMService.generate_answer` (with the model initialised).
`generation_time` is the wall-clock duration measured around the model call;
on the `raised` outcome the outer `except` returns the degraded answer with
the literal `0.0` generation time, while on the `unreadable` outcome the
inner `except` substitutes the apology text and the function continues with
the measured time.  The function is total: no failure propagates. -/
def generate_answer (query : List Char) (context_documents : List SourceDocument)
    (outcome : ModelOutcome) (generation_time : ℚ) : LLMResponse :=
  if context_documents.isEmpty then
    { answer := noInfoMsg, citations := [], generation_time := 0,
      token_usage := none, estimated_cost := none }
  else
    match outcome with
    | ModelOutcome.raised =>
      { answer := errorMsg, citations := [], generation_time := 0,
        token_usage := none, estimated_cost := none }
    | ModelOutcome.unreadable =>
      successResponse query context_documents unreadableMsg generation_time
    | ModelOutcome.text t =>
      successResponse query context_documents t generation_time

/-- The `QueryResponse` pydantic model of `schemas.py`; `token_usage` and
`estimated_cost` default to `None`. -/
structure QueryResponse where
  answer : List Char
  citations : List Citation
  sources : List SourceDocument
  retrieval_time : ℚ
  rerank_time : ℚ
  llm_time : ℚ
  total_time : ℚ
  token_usage : Option TokenUsage
  estimated_cost : Option ℚ
  deriving DecidableEq

/-- Fixed answer of `DocumentRoutes._no_results_response`. -/
def noResultsMsg : List Char :=
  ("I couldn't find any relevant information to answer your question. Please try rephrasing your query or upload relevant documents.").data

/-- `DocumentRoutes._no_results_response`. -/
def _no_results_response (retrieval_results : RetrievalResult) : QueryResponse :=
  { answer := noResultsMsg, citations := [], sources := [],
    retrieval_time := retrieval_results.retrieval_time,
    rerank_time := retrieval_results.rerank_time,
    llm_time := 0,
    total_time := retrieval_results.retrieval_time + retrieval_results.rerank_time,
    token_usage := none, estimated_cost := none }

/-- `DocumentRoutes._build_response`. -/
def _build_response (retrieval_results : RetrievalResult) (llm_response : LLMResponse) :
    QueryResponse :=
  { answer := llm_response.answer, citations := llm_response.citations,
    sources := retrieval_results.documents,
    retrieval_time := retrieval_results.retrieval_time,
    rerank_time := retrieval_results.rerank_time,
    llm_time := llm_response.generation_time,
    total_time := retrieval_results.retrieval_time + retrieval_results.rerank_time
      + llm_response.generation_time,
    token_usage := llm_response.token_usage,
    estimated_cost := llm_response.estimated_cost }

/-- The response-assembly tail of `DocumentRoutes.query_documents`, given the
retrieval result.  `generator` stands for `self.llm.generate_answer` applied
to the request's query; the branch on empty documents is taken before any
generation, so `generator` is only ever applied on the non-empty branch. -/
def query_documents (retrieval_results : RetrievalResult)
    (generator : List SourceDocument → LLMResponse) : QueryResponse :=
  if retrieval_results.documents.isEmpty then _no_results_response retrieval_results
  else _build_response retrieval_results (generator retrieval_results.documents)

/-- Concrete chunking input: 150 letters, one space, then a single run-on
token of 851 characters (normalised length 1002, just above the window). -/
def c1Text : List Char := List.replicate 150 'a' ++ ' ' :: List.replicate 851 'b'

/-- Concrete chunking input: 851 letters, no whitespace at all. -/
def c2Text : List Char := List.replicate 851 'a'

/-- A concrete source document. -/
def docA : SourceDocument :=
  { id := ('d' :: ['A']), content := ("alpha content").data, source := ("srcA").data,
    title := ("titleA").data, score := 9 / 10, rerank_score := none }

/-- A concrete source document. -/
def docB : SourceDocument :=
  { id := ('d' :: ['B']), content := ("beta content").data, source := ("srcB").data,
    title := ("titleB").data, score := 8 / 10, rerank_score := none }

/-- A concrete source document. -/
def docC : SourceDocument :=
  { id := ('d' :: ['C']), content := ("gamma content").data, source := ("srcC").data,
    title := ("titleC").data, score := 7 / 10, rerank_score := none }

/-- A concrete three-document context list. -/
def docs3 : List SourceDocument := [docA, docB, docC]

/-- A concrete vector-index match. -/
def matchA : QueryMatch :=
  { id := ('m' :: ['A']), score := 9 / 10, content := ("alpha content").data,
    source := ("srcA").data, title := ("titleA").data }

/-- A concrete vector-index match. -/
def matchB : QueryMatch :=
  { id := ('m' :: ['B']), score := 8 / 10, content := ("beta content").data,
    source := ("srcB").data, title := ("titleB").data }

/-! Toolkit about `dropWhile`, `pyStrip`, `pySplit` and `cleanText`. -/

theorem dropWhile_head_false {α : Type} {p : α → Bool} {l : List α}
    (h : ∀ c, l.head? = some c → p c = false) : l.dropWhile p = l := by
  cases l with
  | nil => rfl
  | cons a t => simp [List.dropWhile_cons, h a rfl]

theorem head?_dropWhile_false {α : Type} {p : α → Bool} :
    ∀ (l : List α) (c : α), (l.dropWhile p).head? = some c → p c = false := by
  intro l
  induction l with
  | nil => intro c h; simp at h
  | cons a t ih =>
    intro c h
    rw [List.dropWhile_cons] at h
    by_cases hpa : p a
    · simp [hpa] at h; exact ih c h
    · simp [hpa] at h
      subst h
      simp at hpa
      exact hpa

theorem getLast?_dropWhile {α : Type} {p : α → Bool} :
    ∀ (l : List α), l.dropWhile p ≠ [] → (l.dropWhile p).getLast? = l.getLast? := by
  intro l
  induction l with
  | nil => intro h; simp [List.dropWhile] at h
  | cons a t ih =>
    intro h
    rw [List.dropWhile_cons] at h ⊢
    by_cases hpa : p a
    · simp only [hpa, if_true] at h ⊢
      cases t with
      | nil => simp [List.dropWhile] at h
      | cons b t2 =>
        rw [List.getLast?_cons_cons]
        exact ih h
    · simp [hpa]

theorem pyStrip_ne_nil {l : List Char} {c : Char} (hc : l.head? = some c)
    (hcs : isPySpace c = false) : pyStrip l ≠ [] := by
  have hdw : l.dropWhile isPySpace = l := by
    apply dropWhile_head_false
    intro d hd
    rw [hc] at hd
    cases hd
    exact hcs
  unfold pyStrip
  rw [hdw]
  simp only [ne_eq, List.reverse_eq_nil_iff, List.dropWhile_eq_nil_iff]
  intro hall
  have hmem : c ∈ l.reverse := by
    cases l with
    | nil => simp at hc
    | cons a t => cases hc; simp
  have := hall c hmem
  rw [hcs] at this
  exact Bool.noConfusion this

theorem head?_pyStrip {l : List Char} {c : Char} (h : (pyStrip l).head? = some c) :
    isPySpace c = false := by
  unfold pyStrip at h
  rw [List.head?_reverse] at h
  have hne : (l.dropWhile isPySpace).reverse.dropWhile isPySpace ≠ [] := by
    intro hnil; rw [hnil] at h; simp at h
  rw [getLast?_dropWhile _ hne, List.getLast?_reverse] at h
  exact head?_dropWhile_false _ _ h

theorem getLast?_pyStrip {l : List Char} {c : Char} (h : (pyStrip l).getLast? = some c) :
    isPySpace c = false := by
  unfold pyStrip at h
  rw [List.getLast?_reverse] at h
  exact head?_dropWhile_false _ _ h

theorem pyStrip_eq_self {l : List Char}
    (h1 : ∀ c, l.head? = some c → isPySpace c = false)
    (h2 : ∀ c, l.getLast? = some c → isPySpace c = false) : pyStrip l = l := by
  unfold pyStrip
  rw [dropWhile_head_false h1]
  rw [dropWhile_head_false (by intro c hc; rw [List.head?_reverse] at hc; exact h2 c hc)]
  exact List.reverse_reverse l

theorem pyStrip_idem (l : List Char) : pyStrip (pyStrip l) = pyStrip l :=
  pyStrip_eq_self (fun _ h => head?_pyStrip h) (fun _ h => getLast?_pyStrip h)

theorem pySplitAux_words :
    ∀ (l acc : List Char), (∀ c ∈ acc, isPySpace c = false) →
      ∀ w ∈ pySplitAux l acc, w ≠ [] ∧ ∀ c ∈ w, isPySpace c = false := by
  intro l
  induction l with
  | nil =>
    intro acc hacc w hw
    unfold pySplitAux at hw
    by_cases ha : acc = []
    · simp [ha] at hw
    · simp [ha] at hw
      subst hw
      refine ⟨by simpa using ha, ?_⟩
      intro c hc
      exact hacc c (by simpa using hc)
  | cons a t ih =>
    intro acc hacc w hw
    unfold pySplitAux at hw
    by_cases hsp : isPySpace a
    · simp only [hsp, if_true] at hw
      by_cases ha : acc = []
      · simp only [ha, if_true] at hw
        exact ih [] (by intro c hc; simp at hc) w hw
      · simp only [ha, if_false] at hw
        rcases List.mem_cons.mp hw with hw | hw
        · subst hw
          refine ⟨by simpa using ha, ?_⟩
          intro c hc
          exact hacc c (by simpa using hc)
        · exact ih [] (by intro c hc; simp at hc) w hw
    · rw [if_neg hsp] at hw
      refine ih (a :: acc) ?_ w hw
      intro c hc
      rcases List.mem_cons.mp hc with hc | hc
      · subst hc
        simp at hsp
        exact hsp
      · exact hacc c hc

theorem intercalate_cons_head {w : List Char} {ws : List (List Char)} (hw : w ≠ []) :
    (List.intercalate [' '] (w :: ws)).head? = w.head? := by
  cases w with
  | nil => exact absurd rfl hw
  | cons c w2 =>
    cases ws with
    | nil => simp [List.intercalate]
    | cons v vs => simp [List.intercalate, List.intersperse_cons₂]

theorem cleanText_head {t : List Char} {c : Char} (h : (cleanText t).head? = some c) :
    isPySpace c = false := by
  unfold cleanText at h
  cases hws : pySplit t with
  | nil => rw [hws] at h; simp [List.intercalate] at h
  | cons w ws =>
    rw [hws] at h
    have hword := pySplitAux_words t [] (by intro x hx; simp at hx) w
      (by rw [pySplit] at hws; rw [hws]; exact List.mem_cons_self w ws)
    rw [intercalate_cons_head hword.1] at h
    apply hword.2
    cases w with
    | nil => exact absurd rfl hword.1
    | cons d w2 => cases h; exact List.mem_cons_self _ _

theorem pyStrip_cleanText_ne_nil {t : List Char} (h : cleanText t ≠ []) :
    pyStrip (cleanText t) ≠ [] := by
  cases hh : (cleanText t).head? with
  | none => rw [List.head?_eq_none_iff] at hh; exact absurd hh h
  | some c => exact pyStrip_ne_nil hh (cleanText_head hh)

/-! Normalisation and window analysis of the concrete input `c1Text`. -/

theorem pySplitAux_append_nonspace :
    ∀ (l rest acc : List Char), (∀ c ∈ l, isPySpace c = false) →
      pySplitAux (l ++ rest) acc = pySplitAux rest (l.reverse ++ acc) := by
  intro l
  induction l with
  | nil => intro rest acc _; simp
  | cons a t ih =>
    intro rest acc hl
    have ha : isPySpace a = false := hl a (List.mem_cons_self a t)
    have hstep : pySplitAux (a :: (t ++ rest)) acc = pySplitAux (t ++ rest) (a :: acc) := by
      rw [pySplitAux]
      rw [if_neg (by simp [ha])]
    rw [List.cons_append, hstep]
    rw [ih rest (a :: acc) (fun c hc => hl c (List.mem_cons_of_mem a hc))]
    simp

theorem replicate_150_ne_nil : List.replicate 150 'a' ≠ ([] : List Char) := by
  simp

theorem replicate_851_ne_nil : List.replicate 851 'b' ≠ ([] : List Char) := by
  simp

theorem pySplit_c1Text :
    pySplit c1Text = [List.replicate 150 'a', List.replicate 851 'b'] := by
  have h1 : pySplit c1Text =
      pySplitAux (' ' :: List.replicate 851 'b') (List.replicate 150 'a') := by
    unfold pySplit c1Text
    rw [pySplitAux_append_nonspace _ _ _
      (by intro c hc; rw [List.eq_of_mem_replicate hc]; rfl)]
    rw [List.reverse_replicate, List.append_nil]
  rw [h1]
  rw [pySplitAux]
  rw [if_pos (show isPySpace ' ' = true by decide)]
  rw [if_neg replicate_150_ne_nil]
  rw [List.reverse_replicate]
  have hb : pySplitAux (List.replicate 851 'b') [] = [List.replicate 851 'b'] := by
    have h2 := pySplitAux_append_nonspace (List.replicate 851 'b') [] []
      (by intro c hc; rw [List.eq_of_mem_replicate hc]; rfl)
    rw [List.append_nil] at h2
    rw [h2, List.reverse_replicate, List.append_nil]
    rw [pySplitAux]
    rw [if_neg replicate_851_ne_nil]
    rw [List.reverse_replicate]
  rw [hb]

theorem cleanText_c1Text : cleanText c1Text = c1Text := by
  unfold cleanText
  rw [pySplit_c1Text]
  show List.intercalate [' '] [List.replicate 150 'a', List.replicate 851 'b'] = c1Text
  unfold List.intercalate
  rw [List.intersperse_cons₂, List.intersperse_single]
  unfold c1Text
  rw [List.flatten_cons, List.flatten_cons, List.flatten_cons, List.flatten_nil,
    List.append_nil, List.singleton_append]

theorem c1Text_length : c1Text.length = 1002 := by
  unfold c1Text
  rw [List.length_append, List.length_replicate, List.length_cons, List.length_replicate]

theorem c1Text_getElem_space : c1Text[150]? = some ' ' := by
  unfold c1Text
  rw [List.getElem?_append_right (by rw [List.length_replicate])]
  rw [List.length_replicate, Nat.sub_self]
  rw [List.getElem?_cons_zero]

theorem c1Text_getElem_b {e : Nat} (h1 : 150 < e) (h2 : e ≤ 1001) :
    c1Text[e]? = some 'b' := by
  unfold c1Text
  rw [List.getElem?_append_right (by simp; omega)]
  simp only [List.length_replicate]
  have he : e - 150 = (e - 151) + 1 := by omega
  rw [he, List.getElem?_cons_succ]
  rw [List.getElem?_replicate]
  rw [if_pos (by omega)]

theorem walkBack_c1Text_stop (s : Nat) : walkBack c1Text s 150 = 150 := by
  show walkBack c1Text s (149 + 1) = 150
  rw [walkBack]
  rw [if_neg (by rw [show (149 : Nat) + 1 = 150 from rfl, c1Text_getElem_space]; simp)]

theorem walkBack_c1Text_run : ∀ d, d ≤ 851 → walkBack c1Text 0 (150 + d) = 150 := by
  intro d
  induction d with
  | zero => intro _; exact walkBack_c1Text_stop 0
  | succ k ih =>
    intro hk
    have hstep : 150 + (k + 1) = (150 + k) + 1 := by omega
    rw [hstep]
    rw [walkBack]
    rw [if_pos ?cond]
    case cond =>
      constructor
      · omega
      · rw [c1Text_getElem_b (by omega) (by omega)]
        simp
    exact ih (by omega)

theorem windowEnd_c1Text_0 : windowEnd c1Text 0 = 150 := by
  have hw : walkBack c1Text 0 (0 + chunk_size) = 150 := by
    rw [show 0 + chunk_size = 150 + 850 from by rw [chunk_size]]
    exact walkBack_c1Text_run 850 (by norm_num)
  unfold windowEnd
  rw [if_pos (by rw [chunk_size, c1Text_length]; omega)]
  rw [hw]
  rw [if_neg (by norm_num)]

theorem c1Text_window : windowPiece c1Text 0 150 = List.replicate 150 'a' := by
  unfold windowPiece
  rw [List.drop_zero]
  have htake : c1Text.take (150 - 0) = List.replicate 150 'a' := by
    unfold c1Text
    exact List.take_left' (by simp)
  rw [htake]
  apply pyStrip_eq_self
  · intro c hc
    rw [List.head?_replicate] at hc
    rw [if_neg (by omega)] at hc
    cases hc
    rfl
  · intro c hc
    rw [List.getLast?_eq_head?_reverse, List.reverse_replicate, List.head?_replicate] at hc
    rw [if_neg (by omega)] at hc
    cases hc
    rfl

theorem chunkTextAux_c1_step (src ttl sec : List Char) (uu : Nat → List Char) (f num : Nat) :
    chunkTextAux c1Text src ttl sec uu (f + 1) 0 num =
      (chunkTextAux c1Text src ttl sec uu f 0 (num + 1)).map
        (fun rest =>
          { id := src ++ '_' :: (Nat.toDigits 10 num ++ '_' :: uu num),
            content := List.replicate 150 'a',
            metadata :=
              { source := src, title := ttl, sectionName := sec,
                position := num } } :: rest) := by
  conv_lhs => unfold chunkTextAux
  rw [if_pos (by rw [c1Text_length]; omega)]
  rw [windowEnd_c1Text_0, c1Text_window]
  rw [if_neg replicate_150_ne_nil]
  rw [show nextStartOf 150 = 0 from by unfold nextStartOf chunk_overlap; norm_num]

theorem chunkTextAux_c1_none (src ttl sec : List Char) (uu : Nat → List Char) :
    ∀ fuel num, chunkTextAux c1Text src ttl sec uu fuel 0 num = none := by
  intro fuel
  induction fuel with
  | zero => intro num; rfl
  | succ f ih =>
    intro num
    rw [chunkTextAux_c1_step, ih (num + 1)]
    rfl

/-- C1: REFUTED — the code has a bug here.  The claim says `chunk_text`
terminates on every input because the forced-progress guard makes the start
advance.  The guard in the code is only `if start < 0: start = end`, which
does not fire when the word-boundary walk pulls the window end back to
`start + chunk_overlap` or less while `end - chunk_overlap ≥ 0`.  On
`c1Text` (150 letters, a space at index 150, then an 851-character run-on
token) the loop start is stuck at 0 forever: every iteration sets
`end = 150` (the only space) and `start = end - 150 = 0` again.  Formally:
the fuel-indexed interpreter of the loop returns `none` for every fuel, so
the Python `while` loop never exits. -/
theorem chunk_text_c1_nonterminating :
    ∀ (fuel : Nat) (src ttl sec : List Char) (uu : Nat → List Char),
      chunk_text c1Text src ttl sec uu fuel = none := by
  intro fuel src ttl sec uu
  unfold chunk_text
  rw [cleanText_c1Text]
  exact chunkTextAux_c1_none src ttl sec uu fuel 0

/-- C2, counterexample: the claim as stated is false.  `c2Text` is 851
letters with no whitespace: its normalised form has length 851 (shorter than
the chunk size 1000) and is non-empty, yet `chunk_text` returns two chunks
(the loop re-enters at `start = 1000 - 150 = 850 < 851` and emits the
one-character tail). -/
theorem chunk_text_851_two_chunks :
    (cleanText c2Text).length = 851 ∧ cleanText c2Text ≠ [] ∧
      (chunk_text c2Text ['s'] ['t'] ['m'] (fun _ => ['u']) 3).map List.length = some 2 := by
  refine ⟨by decide, by decide, by decide⟩

/-- C2, amended: for every input text whose whitespace-normalised form is
non-empty and has length at most `chunk_size - chunk_overlap = 850`,
`chunk_text` returns exactly one chunk, whose content is the trimmed
normalised input and whose position is 0 (any fuel of at least two loop
iterations suffices). -/
theorem chunk_text_single_chunk (text src ttl sec : List Char) (uu : Nat → List Char)
    (f : Nat) (hne : cleanText text ≠ []) (hlen : (cleanText text).length ≤ 850) :
    chunk_text text src ttl sec uu (f + 2) =
      some [{ id := src ++ '_' :: (Nat.toDigits 10 0 ++ '_' :: uu 0),
              content := pyStrip (cleanText text),
              metadata :=
                { source := src, title := ttl, sectionName := sec,
                  position := 0 } }] := by
  unfold chunk_text
  have hlenpos : 0 < (cleanText text).length := List.length_pos.mpr hne
  have hwe : windowEnd (cleanText text) 0 = 0 + chunk_size := by
    unfold windowEnd
    rw [if_neg (by rw [chunk_size]; omega)]
  have hwp : windowPiece (cleanText text) 0 (0 + chunk_size) = pyStrip (cleanText text) := by
    unfold windowPiece
    rw [List.drop_zero, Nat.sub_zero]
    rw [List.take_of_length_le (by rw [chunk_size]; omega)]
  have hns : nextStartOf (0 + chunk_size) = 850 := by
    unfold nextStartOf
    rw [chunk_size, chunk_overlap]
    norm_num
  have htail : chunkTextAux (cleanText text) src ttl sec uu (f + 1) 850 1 = some [] := by
    conv_lhs => unfold chunkTextAux
    rw [if_neg (by omega)]
  conv_lhs => unfold chunkTextAux
  rw [if_pos hlenpos, hwe, hwp]
  rw [if_neg (pyStrip_cleanText_ne_nil hne)]
  rw [hns, htail]
  rfl

/-- Witness for C2 (amended): uploading the text `"A B C"` yields exactly
one chunk with position 0 whose content is the trimmed normalised input. -/
theorem chunk_text_single_chunk_witness :
    chunk_text ['A', ' ', 'B', ' ', 'C'] ['s'] ['t'] ['m'] (fun _ => ['u']) 2 =
      some [{ id := ['s'] ++ '_' :: (Nat.toDigits 10 0 ++ '_' :: ['u']),
              content := pyStrip (cleanText ['A', ' ', 'B', ' ', 'C']),
              metadata :=
                { source := ['s'], title := ['t'], sectionName := ['m'],
                  position := 0 } }] :=
  chunk_text_single_chunk ['A', ' ', 'B', ' ', 'C'] ['s'] ['t'] ['m'] (fun _ => ['u']) 0
    (by decide) (by decide)

theorem chunkTextAux_content (cleaned src ttl sec : List Char) (uu : Nat → List Char) :
    ∀ (fuel start num : Nat) (chunks : List TextChunk),
      chunkTextAux cleaned src ttl sec uu fuel start num = some chunks →
      ∀ c ∈ chunks, c.content ≠ [] ∧ pyStrip c.content = c.content := by
  intro fuel
  induction fuel with
  | zero => intro start num chunks h; exact absurd h (by simp [chunkTextAux])
  | succ f ih =>
    intro start num chunks h
    rw [chunkTextAux] at h
    by_cases hguard : start < cleaned.length
    · rw [if_pos hguard] at h
      by_cases hpiece : windowPiece cleaned start (windowEnd cleaned start) = []
      · rw [if_pos hpiece] at h
        exact ih _ _ _ h
      · rw [if_neg hpiece] at h
        rcases Option.map_eq_some'.mp h with ⟨rest, hrest, hchunks⟩
        intro c hc
        rw [← hchunks] at hc
        rcases List.mem_cons.mp hc with hc | hc
        · subst hc
          refine ⟨hpiece, ?_⟩
          show pyStrip (windowPiece cleaned start (windowEnd cleaned start)) = _
          unfold windowPiece
          exact pyStrip_idem _
        · exact ih _ _ _ hrest c hc
    · rw [if_neg hguard] at h
      cases h
      intro c hc
      exact absurd hc (by simp)

/-- C9: every chunk emitted by `chunk_text` has non-empty content even after
trimming — a window slice that strips to the empty string is skipped and
never appears in the returned list.  (Chunk contents are stored already
stripped, so stripping them again is the identity and they are non-empty.) -/
theorem chunk_text_chunks_nonempty (text src ttl sec : List Char) (uu : Nat → List Char)
    (fuel : Nat) (chunks : List TextChunk)
    (h : chunk_text text src ttl sec uu fuel = some chunks) :
    ∀ c ∈ chunks, c.content ≠ [] ∧ pyStrip c.content = c.content :=
  chunkTextAux_content (cleanText text) src ttl sec uu fuel 0 0 chunks h

/-- Witness for C9 at the concrete input `"A B C"`. -/
theorem chunk_text_chunks_nonempty_witness :
    (['A', ' ', 'B', ' ', 'C'] : List Char) ≠ [] ∧
      pyStrip ['A', ' ', 'B', ' ', 'C'] = ['A', ' ', 'B', ' ', 'C'] := by
  have h := chunk_text_chunks_nonempty ['A', ' ', 'B', ' ', 'C'] ['s'] ['t'] ['m']
    (fun _ => ['u']) 2
    [{ id := ['s', '_', '0', '_', 'u'],
       content := ['A', ' ', 'B', ' ', 'C'],
       metadata :=
         { source := ['s'], title := ['t'], sectionName := ['m'],
           position := 0 } }]
    (by decide)
    { id := ['s', '_', '0', '_', 'u'],
      content := ['A', ' ', 'B', ' ', 'C'],
      metadata :=
        { source := ['s'], title := ['t'], sectionName := ['m'],
          position := 0 } }
    (by simp)
  exact h

theorem chunkTextAux_positions (cleaned src ttl sec : List Char) (uu : Nat → List Char) :
    ∀ (fuel start num : Nat) (chunks : List TextChunk),
      chunkTextAux cleaned src ttl sec uu fuel start num = some chunks →
      ∀ k (hk : k < chunks.length),
        (chunks.get ⟨k, hk⟩).metadata.position = num + k ∧
        (chunks.get ⟨k, hk⟩).id =
          src ++ '_' :: (Nat.toDigits 10 (num + k) ++ '_' :: uu (num + k)) := by
  intro fuel
  induction fuel with
  | zero => intro start num chunks h; exact absurd h (by simp [chunkTextAux])
  | succ f ih =>
    intro start num chunks h
    rw [chunkTextAux] at h
    by_cases hguard : start < cleaned.length
    · rw [if_pos hguard] at h
      by_cases hpiece : windowPiece cleaned start (windowEnd cleaned start) = []
      · rw [if_pos hpiece] at h
        exact ih _ _ _ h
      · rw [if_neg hpiece] at h
        rcases Option.map_eq_some'.mp h with ⟨rest, hrest, hchunks⟩
        intro k hk
        subst hchunks
        cases k with
        | zero => exact ⟨rfl, rfl⟩
        | succ j =>
          have hj : j < rest.length := by
            have := hk
            simp only [List.length_cons] at this
            omega
          have := ih _ _ _ hrest j hj
          refine ⟨?_, ?_⟩
          · show (rest.get ⟨j, hj⟩).metadata.position = num + (j + 1)
            rw [this.1]
            omega
          · show (rest.get ⟨j, hj⟩).id = _
            rw [this.2]
            have harith : num + 1 + j = num + (j + 1) := by omega
            rw [harith]
    · rw [if_neg hguard] at h
      cases h
      intro k hk
      exact absurd hk (by simp)

/-- C10: the chunks returned by `chunk_text` carry consecutive 0-based
positions — the k-th emitted chunk has `metadata.position = k` — and its id
is the source name, an underscore, the decimal digits of that same position,
an underscore, and the random suffix drawn for that chunk (the suffix never
affects the position metadata). -/
theorem chunk_text_positions (text src ttl sec : List Char) (uu : Nat → List Char)
    (fuel : Nat) (chunks : List TextChunk)
    (h : chunk_text text src ttl sec uu fuel = some chunks) :
    ∀ k (hk : k < chunks.length),
      (chunks.get ⟨k, hk⟩).metadata.position = k ∧
      (chunks.get ⟨k, hk⟩).id = src ++ '_' :: (Nat.toDigits 10 k ++ '_' :: uu k) := by
  intro k hk
  have := chunkTextAux_positions (cleanText text) src ttl sec uu fuel 0 0 chunks h k hk
  rw [Nat.zero_add] at this
  exact this

/-- Witness for C10 at the concrete input `"A B C"`: the single emitted
chunk has position 0 and id `s_0_u`. -/
theorem chunk_text_positions_witness :
    ({ id := ['s', '_', '0', '_', 'u'],
       content := ['A', ' ', 'B', ' ', 'C'],
       metadata :=
         { source := ['s'], title := ['t'], sectionName := ['m'],
           position := 0 } } : TextChunk).metadata.position = 0 ∧
      ({ id := ['s', '_', '0', '_', 'u'],
         content := ['A', ' ', 'B', ' ', 'C'],
         metadata :=
           { source := ['s'], title := ['t'], sectionName := ['m'],
             position := 0 } } : TextChunk).id =
        ['s'] ++ '_' :: (Nat.toDigits 10 0 ++ '_' :: (fun _ => ['u']) 0) := by
  have h := chunk_text_positions ['A', ' ', 'B', ' ', 'C'] ['s'] ['t'] ['m']
    (fun _ => ['u']) 2
    [{ id := ['s', '_', '0', '_', 'u'],
       content := ['A', ' ', 'B', ' ', 'C'],
       metadata :=
         { source := ['s'], title := ['t'], sectionName := ['m'],
           position := 0 } }]
    (by decide) 0 (by simp)
  exact h

/-- C5: on a vector index returning zero matches, `retrieve_and_rerank`
returns an empty result with the measured retrieval time recorded and the
literal zero rerank time.  The equation holds for every reranker and every
configuration, so the reranker is never invoked (the result cannot depend on
it), and the short-circuit path raises no error (the embedding is a total
function returning a well-formed `RetrievalResult`). -/
theorem retrieve_and_rerank_empty (query : List Char) (rerank_top_k : Nat)
    (cohere_configured : Bool)
    (rerank : List Char → List (List Char) → Nat → Except Unit (List RerankItem))
    (retrieval_time rerank_duration : ℚ) :
    retrieve_and_rerank query rerank_top_k [] cohere_configured rerank
        retrieval_time rerank_duration =
      { documents := [], retrieval_time := retrieval_time, rerank_time := 0 } := by
  rfl

/-- C3: if a reranker is configured, more than one document was retrieved,
and the reranker call raises, `retrieve_and_rerank` returns the first
`rerank_top_k` documents in the original similarity order, none of them
carrying a rerank score.  The failure is absorbed inside
`_rerank_documents`; the embedding is total, so no error reaches the
caller. -/
theorem retrieve_and_rerank_rerank_failure (query : List Char) (rerank_top_k : Nat)
    (similar_docs : List QueryMatch) (retrieval_time rerank_duration : ℚ)
    (hlen : 1 < similar_docs.length) :
    retrieve_and_rerank query rerank_top_k similar_docs true
        (fun _ _ _ => Except.error ()) retrieval_time rerank_duration =
      { documents := (similar_docs.map toSourceDocument).take rerank_top_k,
        retrieval_time := retrieval_time, rerank_time := rerank_duration } ∧
      ∀ d ∈ (similar_docs.map toSourceDocument).take rerank_top_k,
        d.rerank_score = none := by
  constructor
  · unfold retrieve_and_rerank
    rw [if_neg (by
      simp only [List.isEmpty_iff]
      intro hnil
      rw [hnil] at hlen
      simp at hlen)]
    rw [if_pos (by
      refine ⟨rfl, ?_⟩
      rw [List.length_map]
      exact hlen)]
    unfold rerank_documents
    rfl
  · intro d hd
    rcases List.mem_map.mp (List.mem_of_mem_take hd) with ⟨m, _, hm⟩
    rw [← hm]
    rfl

/-- Witness for C3 at two concrete matches with `rerank_top_k = 1`: the
failing reranker yields the single best similarity-ordered document with no
rerank score. -/
theorem retrieve_and_rerank_rerank_failure_witness :
    (retrieve_and_rerank ['q'] 1 [matchA, matchB] true
        (fun _ _ _ => Except.error ()) 1 2).documents = [toSourceDocument matchA] ∧
      (toSourceDocument matchA).rerank_score = none := by
  have h := retrieve_and_rerank_rerank_failure ['q'] 1 [matchA, matchB] 1 2 (by decide)
  constructor
  · rw [h.1]
    rfl
  · exact h.2 (toSourceDocument matchA) (by simp)

/-! Support for the citation-extraction claims. -/

theorem length_filterMap_eq_length_filter {α β : Type} (f : α → Option β) (p : α → Bool)
    (hf : ∀ s, (f s).isSome = p s) :
    ∀ l : List α, (l.filterMap f).length = (l.filter p).length := by
  intro l
  induction l with
  | nil => rfl
  | cons a t ih =>
    rw [List.filterMap_cons, List.filter_cons]
    cases hfa : f a with
    | none =>
      have hpa : p a = false := by rw [← hf a, hfa]; rfl
      rw [hpa]
      simpa using ih
    | some b =>
      have hpa : p a = true := by rw [← hf a, hfa]; rfl
      rw [hpa]
      simp only [List.length_cons, if_true]
      rw [ih]

/-- C4, counterexample: the claim as stated is false.  `[2]` and `[02]` are
distinct marker strings denoting the same integer; the Python `set`
deduplicates by string, so both survive and two Citations with index 2 are
produced for three context documents — not "at most one Citation per
distinct index". -/
theorem extract_citations_duplicate_index :
    ((_extract_citations (("See [2] and [02].").data) docs3).map
        (fun c => c.index)) = [2, 2] := by
  decide

/-- C4, amended: every citation produced by `_extract_citations` has an
index within `[1, len(context_documents)]` (out-of-range markers are
silently dropped), the citation list is sorted ascending by index, and there
is exactly one Citation per distinct in-range marker *string* (markers that
are equal as strings are deduplicated; distinct strings with the same
integer value, such as `[2]` and `[02]`, each survive).  On the spec's
example — answer `"x [2] y [2] z [9]"` against three context documents — the
result is exactly one Citation, for index 2. -/
theorem extract_citations_range_dedup_sorted (answer_text : List Char)
    (context_documents : List SourceDocument) :
    (∀ c ∈ _extract_citations answer_text context_documents,
        1 ≤ c.index ∧ c.index ≤ context_documents.length) ∧
      List.Sorted citLE (_extract_citations answer_text context_documents) ∧
      (_extract_citations answer_text context_documents).length =
        ((pySet (findMarkers answer_text)).filter
          (fun s => decide (1 ≤ digitsToNat s ∧
            digitsToNat s ≤ context_documents.length))).length ∧
      ((_extract_citations (("x [2] y [2] z [9]").data) docs3).map
        (fun c => c.index)) = [2] := by
  refine ⟨?_, ?_, ?_, by decide⟩
  · intro c hc
    unfold _extract_citations at hc
    have hperm := List.perm_insertionSort citLE
      ((pySet (findMarkers answer_text)).filterMap (fun s =>
        if 1 ≤ digitsToNat s ∧ digitsToNat s ≤ context_documents.length then
          (context_documents[digitsToNat s - 1]?).map (mkCitation (digitsToNat s))
        else none))
    rw [hperm.mem_iff] at hc
    rcases List.mem_filterMap.mp hc with ⟨s, _, hs⟩
    by_cases hrange : 1 ≤ digitsToNat s ∧ digitsToNat s ≤ context_documents.length
    · rw [if_pos hrange] at hs
      rcases Option.map_eq_some'.mp hs with ⟨doc, _, hdoc⟩
      rw [← hdoc]
      exact hrange
    · rw [if_neg hrange] at hs
      exact absurd hs (by simp)
  · exact List.sorted_insertionSort citLE _
  · unfold _extract_citations
    rw [(List.perm_insertionSort citLE _).length_eq]
    apply length_filterMap_eq_length_filter
    intro s
    by_cases hrange : 1 ≤ digitsToNat s ∧ digitsToNat s ≤ context_documents.length
    · rw [if_pos hrange, decide_eq_true hrange]
      have hlt : digitsToNat s - 1 < context_documents.length := by omega
      rw [List.getElem?_eq_getElem hlt]
      rfl
    · rw [if_neg hrange]
      simp [hrange]

/-- Witness for C4 (amended) at the spec's example answer and three context
documents: the single produced citation has index 2, which lies in range. -/
theorem extract_citations_range_dedup_sorted_witness :
    1 ≤ (mkCitation 2 docB).index ∧ (mkCitation 2 docB).index ≤ docs3.length := by
  have hx : _extract_citations (("x [2] y [2] z [9]").data) docs3 = [mkCitation 2 docB] := by
    decide
  exact (extract_citations_range_dedup_sorted (("x [2] y [2] z [9]").data) docs3).1
    (mkCitation 2 docB) (by rw [hx]; exact List.mem_singleton.mpr rfl)

/-- C6: when retrieval produced zero documents, the assembler returns the
fixed no-relevant-information answer with empty citations and sources,
`llm_time = 0` and `total_time = retrieval_time + rerank_time`, and the
generator is never invoked (the response is identical for any two
generators); when at least one document was retrieved, `total_time =
retrieval_time + rerank_time + generation_time`. -/
theorem query_documents_assembly (r : RetrievalResult)
    (gen gen2 : List SourceDocument → LLMResponse) :
    (r.documents = [] →
      query_documents r gen =
        { answer := noResultsMsg, citations := [], sources := [],
          retrieval_time := r.retrieval_time, rerank_time := r.rerank_time,
          llm_time := 0, total_time := r.retrieval_time + r.rerank_time,
          token_usage := none, estimated_cost := none } ∧
      query_documents r gen = query_documents r gen2) ∧
    (r.documents ≠ [] →
      (query_documents r gen).total_time =
          r.retrieval_time + r.rerank_time + (gen r.documents).generation_time ∧
        (query_documents r gen).llm_time = (gen r.documents).generation_time ∧
        (query_documents r gen).answer = (gen r.documents).answer) := by
  constructor
  · intro hempty
    have hisEmpty : r.documents.isEmpty = true := by
      rw [List.isEmpty_iff]
      exact hempty
    constructor
    · unfold query_documents
      rw [if_pos hisEmpty]
      rfl
    · unfold query_documents
      rw [if_pos hisEmpty, if_pos hisEmpty]
  · intro hne
    have hisEmpty : r.documents.isEmpty = false := by
      cases hd : r.documents with
      | nil => exact absurd hd hne
      | cons a t => rfl
    refine ⟨?_, ?_, ?_⟩ <;>
      · unfold query_documents
        rw [if_neg (by simp [hisEmpty])]
        rfl

/-- Witness for C6: a concrete empty retrieval result produces the fixed
no-results payload, and a concrete one-document retrieval result produces
`total_time = 1 + 2 + 5` for a generator taking 5 time units. -/
theorem query_documents_assembly_witness :
    query_documents { documents := [], retrieval_time := 1, rerank_time := 2 }
        (fun _ =>
          { answer := ['x'], citations := [], generation_time := 5,
            token_usage := none, estimated_cost := none }) =
      { answer := noResultsMsg, citations := [], sources := [],
        retrieval_time := 1, rerank_time := 2, llm_time := 0, total_time := 1 + 2,
        token_usage := none, estimated_cost := none } ∧
    (query_documents { documents := [docA], retrieval_time := 1, rerank_time := 2 }
        (fun _ =>
          { answer := ['x'], citations := [], generation_time := 5,
            token_usage := none, estimated_cost := none })).total_time = 1 + 2 + 5 := by
  constructor
  · exact ((query_documents_assembly
      { documents := [], retrieval_time := 1, rerank_time := 2 }
      (fun _ =>
        { answer := ['x'], citations := [], generation_time := 5,
          token_usage := none, estimated_cost := none })
      (fun _ =>
        { answer := ['x'], citations := [], generation_time := 5,
          token_usage := none, estimated_cost := none })).1 rfl).1
  · exact ((query_documents_assembly
      { documents := [docA], retrieval_time := 1, rerank_time := 2 }
      (fun _ =>
        { answer := ['x'], citations := [], generation_time := 5,
          token_usage := none, estimated_cost := none })
      (fun _ =>
        { answer := ['x'], citations := [], generation_time := 5,
          token_usage := none, estimated_cost := none })).2 (by simp)).1

/-- C7 support: an answer text without bracketed digit markers yields no
citations. -/
theorem extract_citations_no_markers (answer_text : List Char)
    (context_documents : List SourceDocument) (hm : findMarkers answer_text = []) :
    _extract_citations answer_text context_documents = [] := by
  unfold _extract_citations
  rw [hm]
  rfl

/-- C7, counterexample: the claim as stated is false.  When the model call
succeeds but the response is unreadable (`response.text` raises), the inner
`except` substitutes the apology text but the function keeps the measured
generation time — here 5, not the zero the claim requires for every
generation failure. -/
theorem generate_answer_unreadable_keeps_time :
    (generate_answer ['q'] [docA] ModelOutcome.unreadable 5).generation_time = 5 ∧
      (generate_answer ['q'] [docA] ModelOutcome.unreadable 5).generation_time ≠ 0 := by
  constructor
  · rfl
  · have h5 : (generate_answer ['q'] [docA] ModelOutcome.unreadable 5).generation_time = 5 := rfl
    rw [h5]
    norm_num

/-- C7, amended: with a non-empty context, a model-call failure is caught
inside `generate_answer` and answered with the apology text, empty citations
and zero generation time; an unreadable model response is replaced by the
"couldn't generate a proper response" apology with empty citations (that
text contains no markers) while the measured generation time is kept.  In
both cases the failure never propagates: the embedded function is total. -/
theorem generate_answer_failure_recovery (query : List Char)
    (context_documents : List SourceDocument) (t : ℚ)
    (hne : context_documents ≠ []) :
    generate_answer query context_documents ModelOutcome.raised t =
      { answer := errorMsg, citations := [], generation_time := 0,
        token_usage := none, estimated_cost := none } ∧
    (generate_answer query context_documents ModelOutcome.unreadable t).answer =
        unreadableMsg ∧
    (generate_answer query context_documents ModelOutcome.unreadable t).citations = [] ∧
    (generate_answer query context_documents ModelOutcome.unreadable t).generation_time
        = t := by
  have hisEmpty : context_documents.isEmpty = false := by
    cases context_documents with
    | nil => exact absurd rfl hne
    | cons a l => rfl
  have hprojs :
      generate_answer query context_documents ModelOutcome.unreadable t =
        successResponse query context_documents unreadableMsg t := by
    unfold generate_answer
    rw [if_neg (by simp [hisEmpty])]
  refine ⟨?_, ?_, ?_, ?_⟩
  · unfold generate_answer
    rw [if_neg (by simp [hisEmpty])]
  · rw [hprojs]
    rfl
  · rw [hprojs]
    show _extract_citations unreadableMsg context_documents = []
    exact extract_citations_no_markers _ _ (by decide)
  · rw [hprojs]
    rfl

/-- Witness for C7 (amended) at a one-document context and measured time 5. -/
theorem generate_answer_failure_recovery_witness :
    generate_answer ['q'] [docA] ModelOutcome.raised 5 =
      { answer := errorMsg, citations := [], generation_time := 0,
        token_usage := none, estimated_cost := none } ∧
    (generate_answer ['q'] [docA] ModelOutcome.unreadable 5).answer = unreadableMsg ∧
    (generate_answer ['q'] [docA] ModelOutcome.unreadable 5).citations = [] ∧
    (generate_answer ['q'] [docA] ModelOutcome.unreadable 5).generation_time = 5 :=
  generate_answer_failure_recovery ['q'] [docA] 5 (by simp)

/-! Support for the token-usage and cost-estimate claim. -/

theorem roundHalfEven_bounds (x : ℚ) :
    ⌊x⌋ ≤ roundHalfEven x ∧ roundHalfEven x ≤ ⌊x⌋ + 1 := by
  unfold roundHalfEven
  split_ifs <;> omega

theorem roundHalfEven_mono {x y : ℚ} (h : x ≤ y) :
    roundHalfEven x ≤ roundHalfEven y := by
  have hf : ⌊x⌋ ≤ ⌊y⌋ := Int.floor_le_floor h
  rcases lt_or_eq_of_le hf with hlt | heq
  · have hx := (roundHalfEven_bounds x).2
    have hy := (roundHalfEven_bounds y).1
    omega
  · have hfract : Int.fract x ≤ Int.fract y := by
      unfold Int.fract
      rw [heq]
      linarith
    unfold roundHalfEven
    rw [← heq]
    split_ifs <;> first
      | omega
      | linarith

theorem pyRound6_mono {x y : ℚ} (h : x ≤ y) : pyRound6 x ≤ pyRound6 y := by
  unfold pyRound6
  have hmul : x * 1000000 ≤ y * 1000000 := by linarith
  have hint := roundHalfEven_mono hmul
  have hcast : ((roundHalfEven (x * 1000000) : ℤ) : ℚ) ≤
      ((roundHalfEven (y * 1000000) : ℤ) : ℚ) := by exact_mod_cast hint
  exact div_le_div_of_nonneg_right hcast (by norm_num) |>.trans_eq rfl

/-- C8: token usage is estimated as `floor(len / 4)` independently for the
prompt and the completion, and the estimated cost — a fixed linear function
of the two token counts rounded to six decimal places — is monotone under
doubling the completion text: it never decreases. -/
theorem estimate_cost_monotonic (prompt response : List Char) :
    (_estimate_token_usage prompt response).prompt_tokens = prompt.length / 4 ∧
    (_estimate_token_usage prompt response).completion_tokens = response.length / 4 ∧
    (_estimate_token_usage prompt response).total_tokens =
      prompt.length / 4 + response.length / 4 ∧
    _estimate_cost (_estimate_token_usage prompt response) ≤
      _estimate_cost (_estimate_token_usage prompt (response ++ response)) := by
  refine ⟨rfl, rfl, rfl, ?_⟩
  unfold _estimate_cost _estimate_token_usage
  apply pyRound6_mono
  have hlen : response.length / 4 ≤ (response ++ response).length / 4 :=
    Nat.div_le_div_right (by simp)
  have hcast : ((response.length / 4 : Nat) : ℚ) ≤
      (((response ++ response).length / 4 : Nat) : ℚ) := by exact_mod_cast hlen
  have hterm : ((response.length / 4 : Nat) : ℚ) / 1000 * (3 / 10000) ≤
      (((response ++ response).length / 4 : Nat) : ℚ) / 1000 * (3 / 10000) := by
    linarith
  linarith

end RAG
